import Mathlib

/-!
Verification of the markitdown-api request lifecycle (`src/app.py`).

The embedding models the Python functions of `app.py` over Lean strings
(as `List Char` where character-level reasoning is needed):

* `verify_token`    — the Authorization Gate (app.py lines 25–32);
* `is_forbidden_file` — the Filename Policy (app.py lines 41–45);
* `initAPIToken`    — module-level startup check of the `API_TOKEN`
  environment variable (app.py lines 19–22);
* `process_file`    — the request handler (app.py lines 58–84), with the
  upload-body read outcome, the generated temporary path and the
  conversion delegate supplied as parameters, and the filesystem effect
  on the staged temporary file tracked explicitly.
-/

namespace MarkitdownAPI

/-- Model of Python `s.split(" ")`: split on every single space character,
keeping empty fields (`"".split(" ") == [""]`, `"a  b".split(" ") == ["a","","b"]`). -/
def pySplitOnSpace : List Char → List (List Char)
  | [] => [[]]
  | c :: rest =>
    if c = ' ' then [] :: pySplitOnSpace rest
    else
      match pySplitOnSpace rest with
      | f :: fs => (c :: f) :: fs
      | [] => [[c]]

/-- Model of Python `s.rsplit(".", 1)`: `some (before, after)` splits at the
LAST `'.'` of the list (`after` is the text after that dot); `none` when the
list has no `'.'` at all. -/
def splitAtLastDot : List Char → Option (List Char × List Char)
  | [] => none
  | c :: rest =>
    match splitAtLastDot rest with
    | some (bef, aft) => some (c :: bef, aft)
    | none => if c = '.' then some ([], rest) else none

/-- The Authorization Gate, `verify_token` (app.py lines 25–32):

    if not authorization.startswith("Bearer "):
        raise HTTPException(status_code=401, detail="Invalid token format")
    token = authorization.split(" ")[1]
    if token != API_TOKEN:
        raise HTTPException(status_code=403, detail="Invalid API token")

An `HTTPException` is modelled as `Except.error (statusCode, detail)`.
Python's `startswith` is modelled by `List.isPrefixOf` on the characters.
`split(" ")[1]` is total here because the `startswith` guard guarantees the
header contains a space, hence at least two fields; the `getD` default is
unreachable in that branch. -/
def verify_token (API_TOKEN : String) (authorization : String) : Except (Nat × String) Unit :=
  if !("Bearer ".data.isPrefixOf authorization.data) then
    Except.error (401, "Invalid token format")
  else
    let token := String.mk ((pySplitOnSpace authorization.data).getD 1 [])
    if token != API_TOKEN then
      Except.error (403, "Invalid API token")
    else
      Except.ok ()

/-- The fixed extension denylist `FORBIDDEN_EXTENSIONS` (app.py lines 34–40),
verbatim and in source order. -/
def FORBIDDEN_EXTENSIONS : List String :=
  ["exe", "msi", "bat", "cmd", "dmg", "pkg", "app", "bin", "sh", "run", "dll", "so", "dylib",
   "jar", "apk", "vbs", "ps1", "pyc", "pyo", "sys", "drv", "config", "ini", "dat", "db",
   "sqlite", "mdb", "dbf", "myd", "dxf", "dwg", "stl", "obj", "3ds", "blend", "gpg", "asc",
   "pgp", "vdi", "vmdk", "ova", "docker", "containerd", "class", "o", "a", "lib", "ttf",
   "otf", "fon"]

/-- The Filename Policy, `is_forbidden_file` (app.py lines 42–45):

    return ("." in filename and filename.rsplit(".", 1)[1].lower() in FORBIDDEN_EXTENSIONS)

`splitAtLastDot` returns `some` exactly when `"." in filename`, and its second
component is `rsplit(".", 1)[1]`.  Python's `.lower()` is modelled by
`Char.toLower` on each character (the denylist is pure ASCII). -/
def is_forbidden_file (filename : String) : Bool :=
  match splitAtLastDot filename.data with
  | none => false
  | some (_, ext) => FORBIDDEN_EXTENSIONS.contains (String.mk (ext.map Char.toLower))

/-- Module-level startup check (app.py lines 19–22):

    API_TOKEN = os.getenv("API_TOKEN")
    if not API_TOKEN:
        raise RuntimeError("API_TOKEN environment variable not set")

`env` is `os.getenv("API_TOKEN")` (`none` = variable absent).  Python's
truthiness check `not API_TOKEN` is false for `None` and for the empty
string, so both raise; the `RuntimeError` is modelled as `Except.error`
carrying its message, which aborts module import (the server never binds). -/
def initAPIToken (env : Option String) : Except String String :=
  match env with
  | none => Except.error "API_TOKEN environment variable not set"
  | some t =>
    if t == "" then Except.error "API_TOKEN environment variable not set"
    else Except.ok t

/-- The HTTP outcome of one `/process_file` request.

* `detail`       — a FastAPI `HTTPException` rendered as `{"detail": msg}`
                   with the given status code (raised by `verify_token`);
* `errorBody`    — an explicit `JSONResponse {"error": msg}` with the given
                   status code (lines 64 and 79 of app.py);
* `markdownBody` — the 200 `JSONResponse {"markdown": text}` (line 84);
* `unhandled`    — an exception escaped the handler body uncaught, reaching
                   the framework as a raw internal failure. -/
inductive Resp where
  | detail (code : Nat) (msg : String)
  | errorBody (code : Nat) (msg : String)
  | markdownBody (text : String)
  | unhandled (msg : String)
deriving DecidableEq, Repr

/-- Observable outcome of one simulated `/process_file` request:
the response, whether a staged temporary file was ever created on disk,
whether that file still exists when the handler returns, and how many times
the conversion delegate was invoked. -/
structure SimResult where
  response : Resp
  tempCreated : Bool
  tempExistsAtReturn : Bool
  convertCalls : Nat
deriving DecidableEq, Repr

/-- The request handler `process_file` (app.py lines 58–84).

Parameters beyond the source's own:
* `filename` is `file.filename` — `none` models a multipart upload whose
  filename is missing (`UploadFile.filename is None`);
* `readOk` is whether `temp_file.write(await file.read())` succeeds;
* `tempPath` is the unique name generated by `NamedTemporaryFile`;
* `convert` is the conversion delegate `convert_to_md` as a function of the
  staged path, `Except.error e` meaning it raised an exception with
  message `e` (`str(e)`).

Control-flow facts of the source reflected branch by branch:
* `verify_token` runs first (FastAPI `Depends`); its `HTTPException` is
  rendered by the framework as a structured `{"detail": ...}` response.
* `is_forbidden_file(file.filename)` is evaluated BEFORE the `try` block;
  when `filename is None`, Python's `"." in None` raises `TypeError`, which
  nothing in the handler catches, so it escapes as `unhandled`.
* `NamedTemporaryFile(delete=False)` creates the file on disk at once.
  `temp_file_path = temp_file.name` is only assigned AFTER
  `temp_file.write(await file.read())`: when the read/write raises, the
  `except` clause prepares a 500 response, but the `finally` clause then
  evaluates `os.path.exists(temp_file_path)` with `temp_file_path` still
  unbound, raising `UnboundLocalError`, which replaces the pending return
  and escapes — and the already-created staged file is never deleted.
* When the read/write succeeds, `temp_file_path` is bound and the `finally`
  clause deletes the staged file on both the conversion-failure (500) and
  success (200) paths. -/
def process_file (API_TOKEN : String) (authorization : String) (filename : Option String)
    (readOk : Bool) (tempPath : String) (convert : String → Except String String) :
    SimResult :=
  match verify_token API_TOKEN authorization with
  | Except.error (code, msg) =>
      { response := Resp.detail code msg
        tempCreated := false, tempExistsAtReturn := false, convertCalls := 0 }
  | Except.ok _ =>
    match filename with
    | none =>
        { response := Resp.unhandled "TypeError: argument of type NoneType is not iterable"
          tempCreated := false, tempExistsAtReturn := false, convertCalls := 0 }
    | some fname =>
      if is_forbidden_file fname then
        { response := Resp.errorBody 400 "File type not allowed"
          tempCreated := false, tempExistsAtReturn := false, convertCalls := 0 }
      else if !readOk then
        { response := Resp.unhandled
            "UnboundLocalError: local variable temp_file_path referenced before assignment"
          tempCreated := true, tempExistsAtReturn := true, convertCalls := 0 }
      else
        match convert tempPath with
        | Except.error e =>
            { response := Resp.errorBody 500 e
              tempCreated := true, tempExistsAtReturn := false, convertCalls := 1 }
        | Except.ok text =>
            { response := Resp.markdownBody text
              tempCreated := true, tempExistsAtReturn := false, convertCalls := 1 }

end MarkitdownAPI

/-! Sanity checks of the embedding on concrete inputs (kept as anonymous
examples; they assert nothing beyond evaluation). -/

example : MarkitdownAPI.verify_token "s" "Bearer s" = Except.ok () := rfl

example : MarkitdownAPI.verify_token "s" "Token s" =
    Except.error (401, "Invalid token format") := rfl

example : MarkitdownAPI.verify_token "s" "Bearer x" =
    Except.error (403, "Invalid API token") := rfl

example : MarkitdownAPI.verify_token "s" "Bearer s x" = Except.ok () := rfl

example : MarkitdownAPI.is_forbidden_file "payload.exe" = true := rfl

example : MarkitdownAPI.is_forbidden_file "malware.EXE" = true := rfl

example : MarkitdownAPI.is_forbidden_file "notes.txt" = false := rfl

example : MarkitdownAPI.is_forbidden_file "nodots" = false := rfl

example : MarkitdownAPI.is_forbidden_file "trailing." = false := rfl

namespace MarkitdownAPI

/-! ### Helper lemmas about the character-level primitives -/

theorem takeWhile_append_all {α} (p : α → Bool) (m n : List α)
    (h : ∀ x ∈ m, p x = true) :
    (m ++ n).takeWhile p = m ++ n.takeWhile p := by
  induction m with
  | nil => rfl
  | cons a m' ih =>
    have ha : p a = true := h a (List.mem_cons_self a m')
    simp only [List.cons_append, List.takeWhile_cons, ha, if_true]
    rw [ih (fun x hx => h x (List.mem_cons_of_mem a hx))]

theorem takeWhile_append_stop {α} (p : α → Bool) (m n : List α) (a : α)
    (ha : a ∈ m) (hpa : p a = false) :
    (m ++ n).takeWhile p = m.takeWhile p := by
  induction m with
  | nil => exact absurd ha (List.not_mem_nil a)
  | cons b m' ih =>
    by_cases hb : p b = true
    · simp only [List.cons_append, List.takeWhile_cons, hb, if_true]
      have ha' : a ∈ m' := by
        rcases List.mem_cons.1 ha with h | h
        · subst h; exact absurd hpa (by simp [hb])
        · exact h
      rw [ih ha']
    · have hb' : p b = false := by simpa using hb
      simp [List.takeWhile_cons, hb']

theorem splitAtLastDot_eq_none_iff (l : List Char) :
    splitAtLastDot l = none ↔ '.' ∉ l := by
  induction l with
  | nil => simp [splitAtLastDot]
  | cons c rest ih =>
    rw [splitAtLastDot]
    cases hr : splitAtLastDot rest with
    | some pr =>
      have hdot : '.' ∈ rest := by
        by_contra hmem
        rw [ih.2 hmem] at hr
        exact Option.noConfusion hr
      simp [List.mem_cons, hdot]
    | none =>
      have hrest : '.' ∉ rest := ih.1 hr
      by_cases hc : c = '.'
      · subst hc; simp [hrest]
      · simp [hc, hrest, List.mem_cons, Ne.symm hc]

theorem splitAtLastDot_post (l : List Char) (bef aft : List Char)
    (h : splitAtLastDot l = some (bef, aft)) :
    aft = (l.reverse.takeWhile (fun c => c != '.')).reverse := by
  induction l generalizing bef aft with
  | nil => exact absurd h (by simp [splitAtLastDot])
  | cons c rest ih =>
    rw [splitAtLastDot] at h
    cases hr : splitAtLastDot rest with
    | some pr =>
      obtain ⟨p1, p2⟩ := pr
      rw [hr] at h
      simp only [Option.some.injEq, Prod.mk.injEq] at h
      have hdot : '.' ∈ rest := by
        by_contra hmem
        rw [(splitAtLastDot_eq_none_iff rest).2 hmem] at hr
        exact Option.noConfusion hr
      have hstep : ((c :: rest).reverse.takeWhile (fun c => c != '.'))
          = rest.reverse.takeWhile (fun c => c != '.') := by
        rw [List.reverse_cons]
        exact takeWhile_append_stop _ _ _ '.' (List.mem_reverse.2 hdot) (by simp)
      rw [hstep, ← ih p1 p2 hr, ← h.2]
    | none =>
      rw [hr] at h
      have hrest : '.' ∉ rest := (splitAtLastDot_eq_none_iff rest).1 hr
      by_cases hc : c = '.'
      · rw [if_pos hc] at h
        simp only [Option.some.injEq, Prod.mk.injEq] at h
        have hall : ∀ x ∈ rest.reverse, (x != '.') = true := by
          intro x hx
          have : x ∈ rest := List.mem_reverse.1 hx
          simp only [bne_iff_ne, ne_eq]
          intro hxe
          exact hrest (hxe ▸ this)
        have hstep : ((c :: rest).reverse.takeWhile (fun c => c != '.'))
            = rest.reverse := by
          rw [List.reverse_cons, takeWhile_append_all _ _ _ hall, hc]
          simp [List.takeWhile_cons]
        rw [hstep, List.reverse_reverse, ← h.2]
      · rw [if_neg hc] at h
        exact absurd h (by simp)

theorem pySplitOnSpace_ne_nil (l : List Char) : pySplitOnSpace l ≠ [] := by
  cases l with
  | nil => simp [pySplitOnSpace]
  | cons c rest =>
    rw [pySplitOnSpace]
    by_cases hc : c = ' '
    · simp [hc]
    · simp only [hc, if_false]
      cases h : pySplitOnSpace rest <;> simp

theorem pySplitOnSpace_head (l : List Char) :
    (pySplitOnSpace l).getD 0 [] = l.takeWhile (fun c => c != ' ') := by
  induction l with
  | nil => rfl
  | cons c rest ih =>
    rw [pySplitOnSpace]
    by_cases hc : c = ' '
    · subst hc; simp [List.takeWhile_cons]
    · have hcb : (c != ' ') = true := by simp [hc]
      cases h : pySplitOnSpace rest with
      | nil => exact absurd h (pySplitOnSpace_ne_nil rest)
      | cons f fs =>
        rw [h] at ih
        simp only [hc, if_false, List.takeWhile_cons, hcb, if_true]
        simpa using ih

theorem pySplitOnSpace_append_space (m rest : List Char) (hm : ' ' ∉ m) :
    pySplitOnSpace (m ++ ' ' :: rest) = m :: pySplitOnSpace rest := by
  induction m with
  | nil => rw [List.nil_append, pySplitOnSpace]; simp
  | cons c m' ih =>
    have hc : c ≠ ' ' := fun h => hm (h ▸ List.mem_cons_self c m')
    have hm' : ' ' ∉ m' := fun h => hm (List.mem_cons_of_mem c h)
    rw [List.cons_append, pySplitOnSpace, ih hm']
    simp [hc]

/-- Under the `startswith("Bearer ")` guard, the token the code extracts with
`split(" ")[1]` is exactly the remainder after the 7-character prefix,
truncated before the first subsequent space. -/
theorem bearer_token_eq (auth : List Char) (h : "Bearer ".data <+: auth) :
    (pySplitOnSpace auth).getD 1 [] = (auth.drop 7).takeWhile (fun c => c != ' ') := by
  obtain ⟨t, ht⟩ := h
  have hB : "Bearer ".data = ['B', 'e', 'a', 'r', 'e', 'r', ' '] := rfl
  rw [hB] at ht
  subst ht
  have hsplit : (['B', 'e', 'a', 'r', 'e', 'r', ' '] : List Char) ++ t
      = ['B', 'e', 'a', 'r', 'e', 'r'] ++ (' ' :: t) := rfl
  rw [hsplit, pySplitOnSpace_append_space _ _ (by decide)]
  show (pySplitOnSpace t).getD 0 [] = t.takeWhile (fun c => c != ' ')
  exact pySplitOnSpace_head t

/-! ### Claim theorems -/

/-- C2 (counterexample): with configured secret `"s"`, the header
`"Bearer s x"` starts with `"Bearer "` and its remainder `"s x"` differs from
the secret, so the claim demands rejection — yet `verify_token` accepts,
because `split(" ")[1]` extracts only `"s"`. -/
theorem verify_token_accepts_despite_remainder_mismatch :
    verify_token "s" "Bearer s x" = Except.ok () ∧
    "Bearer ".data.isPrefixOf "Bearer s x".data = true ∧
    "Bearer s x".data.drop 7 ≠ "s".data :=
  ⟨rfl, rfl, by decide⟩

/-- C2 (amended): `verify_token` accepts iff the header starts with the
literal prefix `Bearer ` and the remainder after that 7-character prefix,
truncated before the first subsequent space (i.e. the header's second
space-separated field), exactly equals the configured secret. -/
theorem verify_token_accept_iff (API_TOKEN authorization : String) :
    verify_token API_TOKEN authorization = Except.ok () ↔
      ("Bearer ".data.isPrefixOf authorization.data = true ∧
        String.mk ((authorization.data.drop 7).takeWhile (fun c => c != ' '))
          = API_TOKEN) := by
  unfold verify_token
  cases hp : "Bearer ".data.isPrefixOf authorization.data with
  | false => simp [hp]
  | true =>
    have hpre : "Bearer ".data <+: authorization.data :=
      List.isPrefixOf_iff_prefix.1 hp
    rw [bearer_token_eq authorization.data hpre]
    by_cases he :
        String.mk ((authorization.data.drop 7).takeWhile (fun c => c != ' '))
          = API_TOKEN
    · simp [he]
    · simp [he]

/-- C4: the Filename Policy rejects a filename iff it contains a `'.'` and
the lowercased substring after the last `'.'` is a member of the fixed
denylist; in particular a filename with no `'.'` is admitted, and the match
is case-insensitive (via lowercasing). -/
theorem is_forbidden_file_iff (filename : String) :
    is_forbidden_file filename = true ↔
      ('.' ∈ filename.data ∧
        String.mk (((filename.data.reverse.takeWhile (fun c => c != '.')).reverse).map
            Char.toLower) ∈ FORBIDDEN_EXTENSIONS) := by
  unfold is_forbidden_file
  cases h : splitAtLastDot filename.data with
  | none =>
    have hnd : '.' ∉ filename.data := (splitAtLastDot_eq_none_iff _).1 h
    simp [hnd]
  | some pr =>
    obtain ⟨bef, aft⟩ := pr
    have hdot : '.' ∈ filename.data := by
      by_contra hn
      rw [(splitAtLastDot_eq_none_iff _).2 hn] at h
      exact Option.noConfusion h
    have haft := splitAtLastDot_post _ _ _ h
    rw [haft]
    simp only [hdot, true_and]
    exact ⟨fun hc => List.elem_iff.1 hc, fun hm => List.elem_iff.2 hm⟩

/-- C5: when the header lacks the `Bearer ` prefix, the gate fails with
HTTP 401 and detail `Invalid token format`, whatever the rest of the header;
when the prefix is present but the extracted token (the remainder truncated
at the first subsequent space) differs from the secret, it fails with
HTTP 403 and detail `Invalid API token`. -/
theorem verify_token_error_codes (API_TOKEN authorization : String) :
    ("Bearer ".data.isPrefixOf authorization.data = false →
      verify_token API_TOKEN authorization
        = Except.error (401, "Invalid token format")) ∧
    ("Bearer ".data.isPrefixOf authorization.data = true →
      String.mk ((authorization.data.drop 7).takeWhile (fun c => c != ' '))
          ≠ API_TOKEN →
      verify_token API_TOKEN authorization
        = Except.error (403, "Invalid API token")) := by
  constructor
  · intro hp
    unfold verify_token
    simp [hp]
  · intro hp hne
    unfold verify_token
    have hpre : "Bearer ".data <+: authorization.data :=
      List.isPrefixOf_iff_prefix.1 hp
    rw [bearer_token_eq authorization.data hpre]
    simp [hp, hne]

/-- Witness for C5: concrete 401 and 403 rejections. -/
theorem verify_token_error_codes_witness :
    verify_token "s" "Token abc" = Except.error (401, "Invalid token format") ∧
    verify_token "s" "Bearer wrong" = Except.error (403, "Invalid API token") :=
  ⟨(verify_token_error_codes "s" "Token abc").1 (by decide),
   (verify_token_error_codes "s" "Bearer wrong").2 (by decide) (by decide)⟩

/-- C9: when the `API_TOKEN` environment variable is absent at startup,
module initialization fails with the fatal
`RuntimeError: API_TOKEN environment variable not set`, so the server never
starts. -/
theorem initAPIToken_absent_fatal :
    initAPIToken none = Except.error "API_TOKEN environment variable not set" :=
  rfl

/-- C10: every filename whose last character is `'.'` is admitted by the
Filename Policy: the substring after the last `'.'` is empty, and the empty
string is not on the denylist. -/
theorem is_forbidden_file_trailing_dot (filename : String)
    (h : filename.data.getLast? = some '.') :
    is_forbidden_file filename = false := by
  unfold is_forbidden_file
  cases hs : splitAtLastDot filename.data with
  | none => rfl
  | some pr =>
    obtain ⟨bef, aft⟩ := pr
    have haft := splitAtLastDot_post _ _ _ hs
    have hrev : filename.data.reverse.head? = some '.' := by
      rw [List.head?_reverse]; exact h
    cases hr : filename.data.reverse with
    | nil => rw [hr] at hrev; exact Option.noConfusion hrev
    | cons x tail =>
      rw [hr] at hrev
      have hx : x = '.' := by simpa using hrev
      rw [hr, hx] at haft
      simp [List.takeWhile_cons] at haft
      rw [haft]
      rfl

/-- Witness for C10: the concrete filename `notes.` is admitted. -/
theorem is_forbidden_file_trailing_dot_witness :
    is_forbidden_file "notes." = false :=
  is_forbidden_file_trailing_dot "notes." (by decide)

/-- C1 (refuted on the code): on an authorized, admitted request whose
upload-body read/write fails after `NamedTemporaryFile(delete=False)` has
created the staged file, the handler exits with the staged file STILL on
disk — `temp_file_path` was never assigned, so the `finally` clause raises
`UnboundLocalError` instead of deleting it.  This evaluates `process_file`
at that failing input. -/
theorem process_file_staged_leak_on_read_failure :
    (process_file "s" "Bearer s" (some "upload.txt") false "/tmp/stage0"
        (fun _ => Except.ok "")).tempCreated = true ∧
    (process_file "s" "Bearer s" (some "upload.txt") false "/tmp/stage0"
        (fun _ => Except.ok "")).tempExistsAtReturn = true ∧
    (process_file "s" "Bearer s" (some "upload.txt") false "/tmp/stage0"
        (fun _ => Except.ok "")).response
      = Resp.unhandled
          "UnboundLocalError: local variable temp_file_path referenced before assignment" :=
  ⟨rfl, rfl, rfl⟩

/-- C3 (refuted on the code): an authorized upload with a missing filename
makes `is_forbidden_file(None)` raise `TypeError` before the `try` block, so
the failure escapes the handler as a raw unhandled exception instead of a
structured JSON error body.  This evaluates `process_file` at that failing
input. -/
theorem process_file_unhandled_on_missing_filename :
    (process_file "s" "Bearer s" none true "/tmp/stage1"
        (fun _ => Except.ok "")).response
      = Resp.unhandled "TypeError: argument of type NoneType is not iterable" :=
  rfl

/-- C6: on an authorized request whose filename the Filename Policy rejects,
the handler returns HTTP 400 with body `{"error": "File type not allowed"}`,
and no staged temporary file is ever created. -/
theorem process_file_forbidden_400 (API_TOKEN authorization tempPath fname : String)
    (readOk : Bool) (convert : String → Except String String)
    (hauth : verify_token API_TOKEN authorization = Except.ok ())
    (hforb : is_forbidden_file fname = true) :
    process_file API_TOKEN authorization (some fname) readOk tempPath convert
      = { response := Resp.errorBody 400 "File type not allowed"
          tempCreated := false, tempExistsAtReturn := false, convertCalls := 0 } := by
  unfold process_file
  rw [hauth]
  simp [hforb]

/-- Witness for C6: concrete rejected upload `payload.exe`. -/
theorem process_file_forbidden_400_witness :
    process_file "s" "Bearer s" (some "payload.exe") true "/tmp/stage2"
        (fun _ => Except.ok "converted")
      = { response := Resp.errorBody 400 "File type not allowed"
          tempCreated := false, tempExistsAtReturn := false, convertCalls := 0 } :=
  process_file_forbidden_400 "s" "Bearer s" "/tmp/stage2" "payload.exe" true
    (fun _ => Except.ok "converted") rfl rfl

/-- C7: on an authorized, admitted request whose staging succeeded and whose
conversion raises an exception with message `e`, the handler returns HTTP 500
with body `{"error": e}`, and the staged file has been removed when the
handler returns. -/
theorem process_file_conversion_failure_500
    (API_TOKEN authorization tempPath fname e : String)
    (convert : String → Except String String)
    (hauth : verify_token API_TOKEN authorization = Except.ok ())
    (hforb : is_forbidden_file fname = false)
    (hconv : convert tempPath = Except.error e) :
    process_file API_TOKEN authorization (some fname) true tempPath convert
      = { response := Resp.errorBody 500 e
          tempCreated := true, tempExistsAtReturn := false, convertCalls := 1 } := by
  unfold process_file
  rw [hauth]
  simp [hforb, hconv]

/-- Witness for C7: a concrete conversion failure is reported as 500 and the
staged file is gone. -/
theorem process_file_conversion_failure_500_witness :
    process_file "s" "Bearer s" (some "broken.pdf") true "/tmp/stage3"
        (fun _ => Except.error "UnsupportedFormatException: cannot parse")
      = { response := Resp.errorBody 500 "UnsupportedFormatException: cannot parse"
          tempCreated := true, tempExistsAtReturn := false, convertCalls := 1 } :=
  process_file_conversion_failure_500 "s" "Bearer s" "/tmp/stage3" "broken.pdf"
    "UnsupportedFormatException: cannot parse"
    (fun _ => Except.error "UnsupportedFormatException: cannot parse") rfl rfl rfl

/-- C8: on an authorized, admitted request where staging and conversion both
succeed, the handler returns HTTP 200 with body `{"markdown": text}`, where
`text` is exactly what the conversion delegate returned for the staged path,
the delegate having been invoked exactly once; the staged file is removed
before the handler returns. -/
theorem process_file_success_200
    (API_TOKEN authorization tempPath fname text : String)
    (convert : String → Except String String)
    (hauth : verify_token API_TOKEN authorization = Except.ok ())
    (hforb : is_forbidden_file fname = false)
    (hconv : convert tempPath = Except.ok text) :
    process_file API_TOKEN authorization (some fname) true tempPath convert
      = { response := Resp.markdownBody text
          tempCreated := true, tempExistsAtReturn := false, convertCalls := 1 } := by
  unfold process_file
  rw [hauth]
  simp [hforb, hconv]

/-- Witness for C8: a concrete successful conversion yields the 200 markdown
body with the delegate's text. -/
theorem process_file_success_200_witness :
    process_file "s" "Bearer s" (some "notes.txt") true "/tmp/stage4"
        (fun _ => Except.ok "Hello")
      = { response := Resp.markdownBody "Hello"
          tempCreated := true, tempExistsAtReturn := false, convertCalls := 1 } :=
  process_file_success_200 "s" "Bearer s" "/tmp/stage4" "notes.txt" "Hello"
    (fun _ => Except.ok "Hello") rfl rfl rfl

end MarkitdownAPI
